import Mathlib

/-!
# Verification of the scx_rust_scheduler policy loop

Shallow embedding of `src/main.rs` (a user-space FIFO scheduler built on
`scx_rustland_core`).  The external BPF engine is modelled as oracles:
the sequence of `dequeue_task` responses, a `select_cpu` function, and a
`dispatch_task` success predicate.  Machine integers are embedded as
`Nat` (u64/usize fields) and `Int` (i32 fields); no arithmetic in the
source can overflow (the only operation on u64 values is a division that
shrinks its argument), so no modular reduction is needed.
-/

/-- `QueuedTask` as documented in `consume_tasks`: pid and previously
used cpu are i32, cumulative runtime and weight are u64. -/
structure QueuedTask where
  pid : Int
  cpu : Int
  sum_exec_runtime : Nat
  weight : Nat
  deriving Repr, DecidableEq

/-- `DispatchedTask` as documented in `dispatch_tasks`: pid and target
cpu are i32, flags and the assigned slice are u64. -/
structure DispatchedTask where
  pid : Int
  cpu : Int
  flags : Nat
  slice_ns : Nat
  deriving Repr, DecidableEq

/-- Modelled from the spec: `RL_CPU_ANY` is the "any available CPU"
dispatch flag bit provided by the external `scx_rustland_core` crate
(not part of this repository); its exact numeric value is irrelevant to
the policy, only that it is a fixed nonzero bit OR-ed into `flags`. -/
def RL_CPU_ANY : Nat := 2 ^ 20

/-- Modelled from the spec: `DispatchedTask::new(&task)` of the external
`scx_rustland_core` crate pre-populates the decision from the
`QueuedTask` (same pid, previously used cpu as the initial target, no
flags, slice 0 meaning "use default"). -/
def DispatchedTask.new (task : QueuedTask) : DispatchedTask :=
  { pid := task.pid, cpu := task.cpu, flags := 0, slice_ns := 0 }

/-- Maximum time (in nanoseconds) that a task can run before it is
re-enqueued into the scheduler (`SLICE_NS` in `main.rs`). -/
def SLICE_NS : Nat := 5000000

/-- One `dequeue_task()` response from the engine: an engine error, or
`None` (no task ready), or one ready task. -/
abbrev DequeueResult : Type := Except Unit (Option QueuedTask)

/-- `Scheduler::consume_tasks`: `while let Ok(Some(task)) =
self.bpf.dequeue_task() { self.task_queue.push_back(task); }`.  The
engine's successive responses are the oracle list `calls`; the loop
stops at the first response that is not `Ok(Some _)` (an exhausted
oracle also stops it). -/
def consume_tasks (calls : List DequeueResult) (task_queue : List QueuedTask) :
    List QueuedTask :=
  match calls with
  | [] => task_queue
  | Except.error _ :: _ => task_queue
  | Except.ok none :: _ => task_queue
  | Except.ok (some task) :: rest => consume_tasks rest (task_queue ++ [task])

/-- The body of the dispatch loop for one popped task: build the
decision with `DispatchedTask::new`, ask `select_cpu(task.pid, task.cpu,
0)` (oracle `sel`), assign the idle CPU if the result is non-negative or
set `RL_CPU_ANY` otherwise, and assign `slice_ns = SLICE_NS /
(nr_waiting + 1)`. -/
def dispatchOne (sel : Int → Int → Nat → Int) (nr_waiting : Nat)
    (task : QueuedTask) : DispatchedTask :=
  let dispatched_task := DispatchedTask.new task
  let cpu := sel task.pid task.cpu 0
  let dispatched_task :=
    if cpu ≥ 0 then
      { dispatched_task with cpu := cpu }
    else
      { dispatched_task with flags := dispatched_task.flags ||| RL_CPU_ANY }
  { dispatched_task with slice_ns := SLICE_NS / (nr_waiting + 1) }

/-- The `while let Some(task) = self.task_queue.pop_front()` loop of
`dispatch_tasks`, with `nr_waiting` already captured: returns the list
of decisions submitted (in submission order) and the final queue. -/
def dispatchLoop (sel : Int → Int → Nat → Int) (nr_waiting : Nat) :
    List QueuedTask → List DispatchedTask × List QueuedTask
  | [] => ([], [])
  | task :: rest =>
    let d := dispatchOne sel nr_waiting task
    let (ds, q) := dispatchLoop sel nr_waiting rest
    (d :: ds, q)

/-- `Scheduler::dispatch_tasks`: capture `nr_waiting` (the queue length
at the start of the pass), then pop and dispatch until the queue is
empty.  Every `dispatch_task` submission succeeds here; the fallible
variant is `dispatch_tasksE`. -/
def dispatch_tasks (sel : Int → Int → Nat → Int)
    (task_queue : List QueuedTask) : List DispatchedTask × List QueuedTask :=
  let nr_waiting := task_queue.length
  dispatchLoop sel nr_waiting task_queue

/-- Fallible variant of the dispatch loop: the oracle `dispOk` tells
whether `self.bpf.dispatch_task(&dispatched_task)` returns `Ok`.  The
source calls `.unwrap()` on that result, so a failure panics: the run is
an `Except.error` carrying the decisions successfully submitted before
the panic, and no later task is processed. -/
def dispatch_tasksE (sel : Int → Int → Nat → Int)
    (dispOk : DispatchedTask → Bool) (nr_waiting : Nat) :
    List QueuedTask → Except (List DispatchedTask) (List DispatchedTask)
  | [] => Except.ok []
  | task :: rest =>
    let d := dispatchOne sel nr_waiting task
    if dispOk d then
      match dispatch_tasksE sel dispOk nr_waiting rest with
      | Except.ok ds => Except.ok (d :: ds)
      | Except.error ds => Except.error (d :: ds)
    else
      Except.error []

/-- Helper: wrap a list of ready tasks as the `Ok(Some _)` responses of
an intake drain that ends with `Ok(None)`. -/
def arrivalCalls (arrivals : List QueuedTask) : List DequeueResult :=
  arrivals.map (fun t => Except.ok (some t)) ++ [Except.ok none]

/-- One iteration of the `Running` loop of `Scheduler::run`:
`consume_tasks`, then `dispatch_tasks`, then `notify_complete(0)`.
Returns the decisions submitted, the queue left after the pass, and the
argument passed to `notify_complete`. -/
def runCycle (sel : Int → Int → Nat → Int) (calls : List DequeueResult)
    (task_queue : List QueuedTask) :
    List DispatchedTask × List QueuedTask × Nat :=
  let q := consume_tasks calls task_queue
  let (ds, q') := dispatch_tasks sel q
  (ds, q', 0)

/-- The per-cycle oracle of the engine: the `select_cpu` function and
the `dequeue_task` responses for that cycle's drain. -/
structure CycleOracle where
  sel : Int → Int → Nat → Int
  arrivals : List QueuedTask

/-- Several consecutive `Running` iterations: fold `runCycle` over the
per-cycle oracles, collecting each cycle's submitted decisions. -/
def runCycles : List CycleOracle → List QueuedTask → List (List DispatchedTask) × List QueuedTask
  | [], q => ([], q)
  | o :: rest, q =>
    let (ds, q', _) := runCycle o.sel (arrivalCalls o.arrivals) q
    let (dss, qf) := runCycles rest q'
    (ds :: dss, qf)

/-- Events observable at the engine boundary during one `Running`
iteration of `Scheduler::run`. -/
inductive Event
  | checkExited (result : Bool)
  | dequeueCall
  | dispatch (d : DispatchedTask)
  | notifyComplete (pending : Nat)
  deriving Repr, DecidableEq

def isNotifyEvent : Event → Bool
  | Event.notifyComplete _ => true
  | _ => false

def isExitCheckEvent : Event → Bool
  | Event.checkExited _ => true
  | _ => false

/-- The event trace of one `Running` iteration of the `while
!self.bpf.exited()` loop: the exit poll (returning `false`, so the body
runs), one `dequeue_task` call per drained response (the drain makes
`arrivals.length + 1` calls, the last returning `None`), one
`dispatch_task` submission per popped task, and the final
`notify_complete(0)`.  Also returns the queue left for the next cycle. -/
def cycleEvents (o : CycleOracle) (q : List QueuedTask) :
    List Event × List QueuedTask :=
  let q1 := consume_tasks (arrivalCalls o.arrivals) q
  let (ds, q2) := dispatch_tasks o.sel q1
  (Event.checkExited false ::
      (List.replicate (o.arrivals.length + 1) Event.dequeueCall ++
        ds.map Event.dispatch ++ [Event.notifyComplete 0]),
    q2)

/-- The part of `Scheduler`'s state owned by the policy: the FIFO task
queue (the `bpf` field is the external engine connector, modelled by
the oracles). -/
structure SchedulerState where
  task_queue : List QueuedTask
  deriving Repr, DecidableEq

/-- `Scheduler::init`: a fresh instance starts with
`task_queue: VecDeque::new()`, i.e. an empty queue. -/
def Scheduler.initState : SchedulerState := { task_queue := [] }

/-- The `UserExitInfo` returned by `shutdown_and_report`, restricted to
the field `main` consults. -/
structure ExitReport where
  should_restart : Bool
  deriving Repr, DecidableEq

/-- The `loop` in `main`: each iteration creates a fresh scheduler with
`Scheduler::init` and runs it; `reports` is the oracle sequence of
`UserExitInfo` values returned by successive `run()` calls.  Returns
the initial state of every instance created, and whether the loop
reached its clean `break` (false means the oracle was exhausted with
the process still running). -/
def mainLoop : List ExitReport → List SchedulerState × Bool
  | [] => ([], false)
  | r :: rest =>
    let sched := Scheduler.initState
    if r.should_restart then
      let (insts, clean) := mainLoop rest
      (sched :: insts, clean)
    else
      ([sched], true)

/-- Concrete tasks and oracles used by witnesses. -/
def tA : QueuedTask := { pid := 1, cpu := 0, sum_exec_runtime := 0, weight := 100 }

def tB : QueuedTask := { pid := 2, cpu := 0, sum_exec_runtime := 0, weight := 100 }

def tC : QueuedTask := { pid := 3, cpu := 0, sum_exec_runtime := 0, weight := 100 }

/-- A `select_cpu` oracle that always reports "no idle CPU" (the
negative sentinel). -/
def selNone : Int → Int → Nat → Int := fun _ _ _ => -1

/-- A `select_cpu` oracle that always finds idle CPU 0. -/
def selZero : Int → Int → Nat → Int := fun _ _ _ => 0

/-- A `dispatch_task` oracle that fails exactly on pid 2. -/
def dispOkC : DispatchedTask → Bool := fun d => !(d.pid == 2)

section Lemmas

theorem consume_tasks_append (calls : List DequeueResult)
    (q : List QueuedTask) (t : QueuedTask) :
    consume_tasks (Except.ok (some t) :: calls) q =
      consume_tasks calls (q ++ [t]) := rfl

/-- Draining appends exactly the `Ok(Some _)` prefix of the responses. -/
theorem consume_tasks_arrivalCalls (arrivals : List QueuedTask)
    (q : List QueuedTask) :
    consume_tasks (arrivalCalls arrivals) q = q ++ arrivals := by
  induction arrivals generalizing q with
  | nil => simp [arrivalCalls, consume_tasks]
  | cons t rest ih =>
    simp only [arrivalCalls, List.map_cons, List.cons_append]
    rw [consume_tasks_append]
    rw [show (List.map (fun t => (Except.ok (some t) : DequeueResult)) rest ++
      [Except.ok none]) = arrivalCalls rest from rfl]
    rw [ih]
    simp

/-- The dispatch loop dispatches every popped task, in pop order, and
leaves the queue empty. -/
theorem dispatchLoop_spec (sel : Int → Int → Nat → Int) (nrw : Nat)
    (q : List QueuedTask) :
    dispatchLoop sel nrw q = (q.map (dispatchOne sel nrw), []) := by
  induction q with
  | nil => rfl
  | cons t rest ih => simp [dispatchLoop, ih]

theorem dispatch_tasks_spec (sel : Int → Int → Nat → Int)
    (q : List QueuedTask) :
    dispatch_tasks sel q = (q.map (dispatchOne sel q.length), []) := by
  simp [dispatch_tasks, dispatchLoop_spec]

/-- The pid of a decision is the pid of the task it was built from. -/
theorem dispatchOne_pid (sel : Int → Int → Nat → Int) (nrw : Nat)
    (t : QueuedTask) : (dispatchOne sel nrw t).pid = t.pid := by
  simp only [dispatchOne, DispatchedTask.new]
  by_cases h : sel t.pid t.cpu 0 ≥ 0 <;> simp [h]

/-- Every decision's slice is the fixed budget divided by
`nr_waiting + 1`, whichever branch the CPU selection took. -/
theorem dispatchOne_slice (sel : Int → Int → Nat → Int) (nrw : Nat)
    (t : QueuedTask) :
    (dispatchOne sel nrw t).slice_ns = SLICE_NS / (nrw + 1) := rfl

/-- Across consecutive cycles the dispatched pids plus the leftover
queue's pids are exactly the initial queue's pids followed by all
arrival pids. -/
theorem runCycles_pids (oracles : List CycleOracle) (q : List QueuedTask) :
    (runCycles oracles q).1.flatten.map DispatchedTask.pid ++
        (runCycles oracles q).2.map QueuedTask.pid =
      (q ++ (oracles.map CycleOracle.arrivals).flatten).map QueuedTask.pid := by
  induction oracles generalizing q with
  | nil => simp [runCycles]
  | cons o rest ih =>
    have hrest := ih []
    simp only [List.nil_append] at hrest
    simp only [runCycles, runCycle, consume_tasks_arrivalCalls,
      dispatch_tasks_spec, List.map_cons, List.flatten_cons]
    simp only [List.map_append, List.map_flatten, List.append_assoc] at hrest ⊢
    have hpid : ∀ (n : Nat) (l : List QueuedTask),
        List.map (DispatchedTask.pid ∘ dispatchOne o.sel n) l =
          List.map QueuedTask.pid l := fun n l =>
      List.map_congr_left fun t _ => dispatchOne_pid o.sel n t
    simp [hrest, hpid]

/-- When `select_cpu` finds an idle CPU (non-negative result), the
decision targets exactly that CPU. -/
theorem dispatchOne_cpu_pos (sel : Int → Int → Nat → Int) (nrw : Nat)
    (t : QueuedTask) (h : sel t.pid t.cpu 0 ≥ 0) :
    (dispatchOne sel nrw t).cpu = sel t.pid t.cpu 0 := by
  simp [dispatchOne, DispatchedTask.new, if_pos h]

/-- When `select_cpu` reports no idle CPU (negative sentinel), the
decision gets the `RL_CPU_ANY` flag and keeps the previously used CPU
as its pre-populated target. -/
theorem dispatchOne_cpu_neg (sel : Int → Int → Nat → Int) (nrw : Nat)
    (t : QueuedTask) (h : ¬ sel t.pid t.cpu 0 ≥ 0) :
    (dispatchOne sel nrw t).flags = RL_CPU_ANY ∧
    (dispatchOne sel nrw t).cpu = t.cpu := by
  simp [dispatchOne, DispatchedTask.new, if_neg h]

/-- Events built from `dequeue_task` calls or `dispatch_task`
submissions are never counted by a predicate that rejects them. -/
theorem countP_dispatch_map_zero (p : Event → Bool)
    (hp : ∀ d, p (Event.dispatch d) = false) (ds : List DispatchedTask) :
    (ds.map Event.dispatch).countP p = 0 := by
  induction ds with
  | nil => rfl
  | cons d rest ih => simp [List.countP_cons, hp, ih]

theorem countP_replicate_dequeue_zero (p : Event → Bool)
    (hp : p Event.dequeueCall = false) (n : Nat) :
    (List.replicate n Event.dequeueCall).countP p = 0 := by
  induction n with
  | zero => rfl
  | succ k ih => simp [List.replicate_succ, List.countP_cons, hp, ih]

/-- Starting from an empty queue, every cycle fully drains the queue. -/
theorem runCycles_drained : ∀ oracles : List CycleOracle,
    (runCycles oracles []).2 = []
  | [] => rfl
  | o :: rest => by
    simp only [runCycles, runCycle, consume_tasks_arrivalCalls,
      dispatch_tasks_spec]
    exact runCycles_drained rest

/-- Unrolled form of the restart loop for an oracle of restarting
reports followed by one non-restarting report. -/
theorem mainLoop_replicate (r : ExitReport) (hr : r.should_restart = false) :
    ∀ pre : List ExitReport, (∀ x ∈ pre, x.should_restart = true) →
      mainLoop (pre ++ [r]) =
        (List.replicate (pre.length + 1) Scheduler.initState, true)
  | [], _ => by simp [mainLoop, hr]
  | x :: rest, hpre => by
    have hx : x.should_restart = true := hpre x (List.mem_cons_self ..)
    have h2 := mainLoop_replicate r hr rest
      (fun y hy => hpre y (List.mem_cons_of_mem _ hy))
    simp [mainLoop, hx, h2, List.replicate_succ]

end Lemmas

/-- C1: across any number of Running cycles starting from an empty
queue, the concatenation of the per-cycle submitted decisions carries
exactly the arrival pids, in arrival order: every dequeued task is
dispatched exactly once, none dropped, duplicated, or reordered, and
the queue is empty again after the run. -/
theorem C1_fifo_order (oracles : List CycleOracle) :
    (runCycles oracles []).1.flatten.map DispatchedTask.pid =
      (oracles.map CycleOracle.arrivals).flatten.map QueuedTask.pid ∧
    (runCycles oracles []).2 = [] := by
  have h := runCycles_pids oracles []
  rw [runCycles_drained oracles] at h
  refine ⟨?_, runCycles_drained oracles⟩
  simpa using h

/-- C2: every task dispatched in one pass gets `slice_ns = SLICE_NS /
(n + 1)` where `n` is the queue length at the start of the pass; in
particular a batch of three tasks gives each task
5000000 / 4 = 1250000 ns. -/
theorem C2_fair_division (sel : Int → Int → Nat → Int)
    (q : List QueuedTask) :
    (∀ d ∈ (dispatch_tasks sel q).1, d.slice_ns = SLICE_NS / (q.length + 1)) ∧
    (dispatch_tasks selNone [tA, tB, tC]).1.map DispatchedTask.slice_ns =
      [1250000, 1250000, 1250000] := by
  constructor
  · intro d hd
    rw [dispatch_tasks_spec] at hd
    obtain ⟨t, _, rfl⟩ := List.mem_map.mp hd
    exact dispatchOne_slice ..
  · decide

theorem C2_witness :
    dispatchOne selNone 3 tA ∈ (dispatch_tasks selNone [tA, tB, tC]).1 ∧
    (dispatchOne selNone 3 tA).slice_ns =
      SLICE_NS / ([tA, tB, tC].length + 1) :=
  ⟨by decide, (C2_fair_division selNone [tA, tB, tC]).1 _ (by decide)⟩

/-- C3: the value passed to `notify_complete` in a cycle equals the
number of tasks left in the queue after that cycle's dispatch pass
(the pass always drains the queue, so both are 0). -/
theorem C3_pending_count (sel : Int → Int → Nat → Int)
    (calls : List DequeueResult) (q : List QueuedTask) :
    (runCycle sel calls q).2.2 = (runCycle sel calls q).2.1.length := by
  simp [runCycle, dispatch_tasks_spec]

/-- C4 (counterexample): the claim says the assigned slice is strictly
positive for every finite batch size whenever the budget is positive,
but `SLICE_NS / (nr_waiting + 1)` is integer division: with 5000000
tasks waiting the assigned slice is 0 even though `SLICE_NS > 0`. -/
theorem C4_counterexample :
    0 < SLICE_NS ∧ (dispatchOne selNone 5000000 tA).slice_ns = 0 := by
  refine ⟨by decide, ?_⟩
  rw [dispatchOne_slice]
  decide

/-- C4 (amended): for every batch size `n`, the assigned slice equals
`SLICE_NS / (n + 1)`, and it is strictly positive whenever
`n < SLICE_NS` (rather than for every finite `n`). -/
theorem C4_slice_formula (sel : Int → Int → Nat → Int) (nrw : Nat)
    (t : QueuedTask) :
    (dispatchOne sel nrw t).slice_ns = SLICE_NS / (nrw + 1) ∧
    (nrw < SLICE_NS → 0 < (dispatchOne sel nrw t).slice_ns) := by
  refine ⟨dispatchOne_slice .., fun h => ?_⟩
  rw [dispatchOne_slice]
  exact Nat.div_pos h (Nat.succ_pos nrw)

theorem C4_witness :
    3 < SLICE_NS ∧ 0 < (dispatchOne selNone 3 tA).slice_ns :=
  ⟨by decide, (C4_slice_formula selNone 3 tA).2 (by decide)⟩

/-- C5: when `select_cpu` answers with a non-negative CPU the decision
targets exactly that CPU; when it answers the negative sentinel the
decision carries the `RL_CPU_ANY` flag (and keeps the previously used
CPU as its target); and whenever the queued task's previously used CPU
is a valid (non-negative) identifier, the dispatched target CPU is
never negative. -/
theorem C5_cpu_fallback (sel : Int → Int → Nat → Int) (nrw : Nat)
    (t : QueuedTask) :
    (sel t.pid t.cpu 0 ≥ 0 → (dispatchOne sel nrw t).cpu = sel t.pid t.cpu 0) ∧
    (sel t.pid t.cpu 0 < 0 →
      (dispatchOne sel nrw t).flags &&& RL_CPU_ANY ≠ 0 ∧
      (dispatchOne sel nrw t).cpu = t.cpu) ∧
    (0 ≤ t.cpu → 0 ≤ (dispatchOne sel nrw t).cpu) := by
  refine ⟨fun hpos => dispatchOne_cpu_pos sel nrw t hpos, fun hneg => ?_,
    fun hc => ?_⟩
  · have hn := dispatchOne_cpu_neg sel nrw t (not_le.mpr hneg)
    refine ⟨?_, hn.2⟩
    rw [hn.1]
    decide
  · by_cases h : sel t.pid t.cpu 0 ≥ 0
    · rw [dispatchOne_cpu_pos sel nrw t h]
      exact h
    · rw [(dispatchOne_cpu_neg sel nrw t h).2]
      exact hc

theorem C5_witness :
    (dispatchOne selZero 0 tA).cpu = selZero tA.pid tA.cpu 0 ∧
    ((dispatchOne selNone 0 tA).flags &&& RL_CPU_ANY ≠ 0 ∧
      (dispatchOne selNone 0 tA).cpu = tA.cpu) ∧
    0 ≤ (dispatchOne selNone 0 tA).cpu :=
  ⟨(C5_cpu_fallback selZero 0 tA).1 (by decide),
   (C5_cpu_fallback selNone 0 tA).2.1 (by decide),
   (C5_cpu_fallback selNone 0 tA).2.2 (by decide)⟩

/-- C6: the dispatch loop unwraps every `dispatch_task` result, so the
first submission failure aborts the pass: exactly the decisions before
the failing one were submitted, and no later queued task is processed
(the run is an error, never a silent skip). -/
theorem C6_dispatch_failure_fatal (sel : Int → Int → Nat → Int)
    (dispOk : DispatchedTask → Bool) (nrw : Nat)
    (pre : List QueuedTask) (t : QueuedTask) (post : List QueuedTask)
    (hpre : ∀ x ∈ pre, dispOk (dispatchOne sel nrw x) = true)
    (ht : dispOk (dispatchOne sel nrw t) = false) :
    dispatch_tasksE sel dispOk nrw (pre ++ t :: post) =
      Except.error (pre.map (dispatchOne sel nrw)) := by
  induction pre with
  | nil => simp [dispatch_tasksE, ht]
  | cons x rest ih =>
    have hx : dispOk (dispatchOne sel nrw x) = true :=
      hpre x (List.mem_cons_self ..)
    have hrest := ih (fun y hy => hpre y (List.mem_cons_of_mem _ hy))
    simp [dispatch_tasksE, hx, hrest]

theorem C6_witness :
    dispOkC (dispatchOne selNone 3 tB) = false ∧
    dispatch_tasksE selNone dispOkC 3 [tA, tB, tC] =
      Except.error [dispatchOne selNone 3 tA] :=
  ⟨by decide,
   C6_dispatch_failure_fatal selNone dispOkC 3 [tA] tB [tC]
     (by decide) (by decide)⟩

/-- C7: an engine error during the intake drain stops the drain exactly
like a "no more tasks" response: the tasks appended so far stay in the
queue, the loop returns normally, and the error is never propagated
(the drain's result type is not fallible at all). -/
theorem C7_intake_error_swallowed (tasks : List QueuedTask)
    (rest rest' : List DequeueResult) (q : List QueuedTask) :
    consume_tasks (tasks.map (fun t => Except.ok (some t)) ++
        Except.error () :: rest) q = q ++ tasks ∧
    consume_tasks (tasks.map (fun t => Except.ok (some t)) ++
        Except.error () :: rest) q =
      consume_tasks (tasks.map (fun t => Except.ok (some t)) ++
        Except.ok none :: rest') q := by
  induction tasks generalizing q with
  | nil => simp [consume_tasks]
  | cons t ts ih =>
    simp only [List.map_cons, List.cons_append, consume_tasks_append]
    exact ⟨by rw [(ih (q ++ [t])).1]; simp, (ih (q ++ [t])).2⟩

/-- C8: each iteration of the outer restart loop creates an entirely
fresh scheduler instance whose task queue starts empty; while every
report requests a restart the loop keeps creating fresh instances, and
the first report with `should_restart = false` makes the loop break
cleanly. -/
theorem C8_restart_semantics (pre : List ExitReport) (r : ExitReport)
    (hpre : ∀ x ∈ pre, x.should_restart = true)
    (hr : r.should_restart = false) :
    mainLoop (pre ++ [r]) =
      (List.replicate (pre.length + 1) Scheduler.initState, true) ∧
    Scheduler.initState.task_queue = [] :=
  ⟨mainLoop_replicate r hr pre hpre, rfl⟩

theorem C8_witness :
    mainLoop ([{ should_restart := true }] ++ [{ should_restart := false }]) =
      (List.replicate 2 Scheduler.initState, true) ∧
    Scheduler.initState.task_queue = [] :=
  C8_restart_semantics [{ should_restart := true }] { should_restart := false }
    (by decide) (by decide)

/-- C9: every Running iteration makes exactly one `notify_complete`
call and exactly one `exited()` poll, with the poll as the very first
event of the cycle (before draining) — including when the drain yields
nothing and the queue is already empty. -/
theorem C9_notify_once_per_cycle (o : CycleOracle) (q : List QueuedTask) :
    (cycleEvents o q).1.countP isNotifyEvent = 1 ∧
    (cycleEvents o q).1.countP isExitCheckEvent = 1 ∧
    (cycleEvents o q).1.head? = some (Event.checkExited false) := by
  simp only [cycleEvents, dispatch_tasks_spec]
  refine ⟨?_, ?_, rfl⟩
  · simp only [List.countP_cons, List.countP_append,
      countP_replicate_dequeue_zero isNotifyEvent rfl,
      countP_dispatch_map_zero isNotifyEvent (fun _ => rfl)]
    simp [isNotifyEvent]
  · simp only [List.countP_cons, List.countP_append,
      countP_replicate_dequeue_zero isExitCheckEvent rfl,
      countP_dispatch_map_zero isExitCheckEvent (fun _ => rfl)]
    simp [isExitCheckEvent]

/-- C10: the assigned slice never exceeds the fixed budget: for every
batch size, `SLICE_NS / (n + 1) ≤ SLICE_NS`. -/
theorem C10_slice_le_budget (sel : Int → Int → Nat → Int) (nrw : Nat)
    (t : QueuedTask) :
    (dispatchOne sel nrw t).slice_ns ≤ SLICE_NS := by
  rw [dispatchOne_slice]
  exact Nat.div_le_self ..
